import Mathlib

/-!
Shallow embedding of the `minidb` core (src/minidb/{types,table,database,parser,engine}.py):
value and schema model, tokenizer, recursive-descent parser, in-memory table store and
execution engine, together with proofs settling the specification claims.

Conventions of the embedding:
* Python exceptions become `Except Err`; the `Err` constructors record which Python
  exception class was raised (SyntaxError, ValueError, KeyError) and carry the data the
  Python message interpolates.
* Python `dict` values become association lists (`List (key × value)`); assignment
  `d[k] = v` becomes `dictInsert`, which replaces the first binding of `k` in place
  (keeping its position, as CPython dicts do) or appends a fresh binding at the end.
* Python `str.lower`/`str.upper` become character-wise `Char.toLower`/`Char.toUpper`
  maps (identical to Python's on the ASCII identifiers the tokenizer admits).
-/

namespace MiniDB

/-- Python str.upper, as a character-wise map (ASCII-faithful). -/
def strUpper (s : String) : String := String.mk (s.toList.map Char.toUpper)

/-- Python str.lower, as a character-wise map (ASCII-faithful). -/
def strLower (s : String) : String := String.mk (s.toList.map Char.toLower)

/-- Python exception raised by the core, with the data its message is built from.
`synErr` is Python `SyntaxError` (tokenizer and parser); `valErr` is Python `ValueError`
(`ColumnType.from_sql`, `Table.insert_row`, `Database.create_table`); `unknownColumns`
is the `KeyError` of `Table.select` (message interpolates the full list of missing
names); `noSuchTable` is the `KeyError` of `Database.get_table`. -/
inductive Err where
  | synErr (msg : String)
  | valErr (msg : String)
  | unknownColumns (missing : List String)
  | noSuchTable (name : String)
deriving DecidableEq, Repr

/-- True exactly when the result is a Python `SyntaxError`. -/
def isSynErr {α : Type} : Except Err α → Bool
  | .error (.synErr _) => true
  | _ => false

/-- Value = Union[int, str, bool, None] from src/minidb/types.py. -/
inductive Value where
  | int (i : Int)
  | text (s : String)
  | bool (b : Bool)
  | null
deriving DecidableEq, Repr

/-- ColumnType enumeration {INT, TEXT, BOOL} from src/minidb/types.py. -/
inductive ColumnType where
  | INT
  | TEXT
  | BOOL
deriving DecidableEq, Repr

/-- ColumnType.from_sql: case-insensitive enum-name lookup; unknown name raises
ValueError("Unsupported column type: ...") (src/minidb/types.py, lines 12-18). -/
def ColumnType.from_sql (type_name : String) : Except Err ColumnType :=
  let upper := strUpper type_name
  if upper = "INT" then .ok .INT
  else if upper = "TEXT" then .ok .TEXT
  else if upper = "BOOL" then .ok .BOOL
  else .error (.valErr ("Unsupported column type: " ++ type_name))

/-- ColumnDef from src/minidb/types.py: name, type, nullable (default True),
primary_key (default False). -/
structure ColumnDef where
  name : String
  col_type : ColumnType
  nullable : Bool := true
  primary_key : Bool := false
deriving DecidableEq, Repr

/-- Row = Dict[str, Value]: an association list standing for a Python dict. -/
abbrev Row := List (String × Value)

/-- Python dict assignment `d[k] = v`: replace the first binding of `k` in place,
or append a fresh binding at the end. -/
def dictInsert {β : Type} : List (String × β) → String → β → List (String × β)
  | [], key, v => [(key, v)]
  | (k, u) :: rest, key, v =>
      if k = key then (key, v) :: rest else (k, u) :: dictInsert rest key v

/-- Python dict lookup `d[k]` / `d.get(k)`: first binding of `k`, if any. -/
def alookup {β : Type} : List (String × β) → String → Option β
  | [], _ => none
  | (k, v) :: rest, key => if k = key then some v else alookup rest key

/-- Key sequence of a Python dict modelled as an association list. -/
def dkeys {β : Type} (l : List (String × β)) : List String := l.map Prod.fst

/-- Fold of repeated dict assignments with key `f x` and value `g x`, the common
shape of the row-building loop of insert_row and the projection of select. -/
def foldIns {α β : Type} (f : α → String) (g : α → β)
    (acc : List (String × β)) (xs : List α) : List (String × β) :=
  xs.foldl (fun a x => dictInsert a (f x) (g x)) acc

/-- Table from src/minidb/table.py: name, ordered column definitions, ordered rows. -/
structure Table where
  name : String
  columns : List ColumnDef
  rows : List Row
deriving DecidableEq, Repr

/-- Table.column_names property: the declared names in declared order. -/
def Table.column_names (t : Table) : List String := t.columns.map ColumnDef.name

/-- Row built by Table.insert_row's loop
`for col, val in zip(self.columns, values): row[col.name] = val`. -/
def rowOf (cols : List ColumnDef) (vals : List Value) : Row :=
  (cols.zip vals).foldl (fun r cv => dictInsert r cv.1.name cv.2) []

/-- Table.insert_row (src/minidb/table.py, lines 20-28): length check, then zip-built
row appended at the end; mismatch raises ValueError before any mutation. -/
def Table.insert_row (t : Table) (values : List Value) : Except Err Table :=
  if values.length ≠ t.columns.length then
    .error (.valErr ("Expected " ++ toString t.columns.length ++ " values, got "
      ++ toString values.length))
  else
    .ok (Table.mk t.name t.columns (t.rows ++ [rowOf t.columns values]))

/-- Projection `{col: row[col] for col in column_names}` of Table.select. `row[col]`
cannot raise there because select has already checked every name against
column_names; the embedding totalises it with a `.getD Value.null` that is never
exercised on rows whose keys cover the requested names. -/
def projRow (column_names : List String) (row : Row) : Row :=
  column_names.foldl (fun acc c => dictInsert acc c ((alookup row c).getD Value.null)) []

/-- Table.select (src/minidb/table.py, lines 34-53): `None` returns all rows;
an explicit list is first checked against column_names, collecting every missing
name into one KeyError, then each row is projected. -/
def Table.select (t : Table) : Option (List String) → Except Err (List Row)
  | none => .ok t.rows
  | some column_names =>
      let missing := column_names.filter (fun c => !(t.column_names.contains c))
      if missing.isEmpty then
        .ok (t.rows.map (projRow column_names))
      else
        .error (.unknownColumns missing)

/-- Database.tables: Dict[str, Table] keyed by lower-cased table name. -/
abbrev Database := List (String × Table)

/-- Database.create_table (src/minidb/database.py, lines 13-17): key is the
lower-cased name; existing key raises ValueError, else dict assignment of a fresh
empty table keeping the original-case name. -/
def create_table (db : Database) (name : String) (columns : List ColumnDef) :
    Except Err Database :=
  let key := strLower name
  if (alookup db key).isSome then
    .error (.valErr ("Table " ++ name ++ " already exists"))
  else
    .ok (dictInsert db key (Table.mk name columns []))

/-- Database.get_table (src/minidb/database.py, lines 19-24): case-insensitive lookup,
KeyError when absent. -/
def get_table (db : Database) (name : String) : Except Err Table :=
  match alookup db (strLower name) with
  | some t => .ok t
  | none => .error (.noSuchTable name)

/-- Database.insert (src/minidb/database.py, lines 26-28): resolve the table, insert
the row; the in-place mutation of the resolved Table is the dict update at its key. -/
def dbInsert (db : Database) (table_name : String) (values : List Value) :
    Except Err Database :=
  match get_table db table_name with
  | .error e => .error e
  | .ok t =>
      match t.insert_row values with
      | .error e => .error e
      | .ok t' => .ok (dictInsert db (strLower table_name) t')

/-- Database.select (src/minidb/database.py, lines 30-36). -/
def dbSelect (db : Database) (table_name : String) (columns : Option (List String)) :
    Except Err (List Row) :=
  match get_table db table_name with
  | .ok t => t.select columns
  | .error e => .error e

/-- Statement AST from src/minidb/parser.py: CreateTableStmt, InsertStmt, SelectStmt
(`none` columns encodes `*`). -/
inductive Statement where
  | createTable (name : String) (columns : List ColumnDef)
  | insertInto (table_name : String) (values : List Value)
  | select (table_name : String) (columns : Option (List String))
deriving DecidableEq, Repr

/-- Engine.execute (src/minidb/engine.py): dispatch one statement against the
database; CreateTable/Insert yield no result set, Select yields rows. -/
def execStmt (db : Database) : Statement → Except Err (Database × Option (List Row))
  | .createTable name columns =>
      match create_table db name columns with
      | .ok db' => .ok (db', none)
      | .error e => .error e
  | .insertInto table_name values =>
      match dbInsert db table_name values with
      | .ok db' => .ok (db', none)
      | .error e => .error e
  | .select table_name columns =>
      match dbSelect db table_name columns with
      | .ok rows => .ok (db, some rows)
      | .error e => .error e

/-- One REPL step: a failed statement is fatal to itself only, leaving the database
as it was (spec section 7 propagation policy; the CLI catches the exception). -/
def step (db : Database) (s : Statement) : Database :=
  match execStmt db s with
  | .ok (db', _) => db'
  | .error _ => db

/-- Database state reached by executing a statement sequence from the given state. -/
def runFrom (db : Database) (stmts : List Statement) : Database :=
  stmts.foldl step db

/-- Database state reached from the empty database created at session start. -/
def runStmts (stmts : List Statement) : Database := runFrom [] stmts

/-! ## Tokenizer (src/minidb/parser.py, lines 19-53) -/

/-- Token: a (kind, text) pair; kinds are the regex group names WS, NUMBER, STRING,
IDENT, LPAREN, RPAREN, COMMA, STAR, SEMICOLON. The text is optional because the
source's STRING branch (parser.py, line 49) stores `match.group(2)` — counting
capturing groups by opening parenthesis, group 2 is the NUMBER group, which never
participates in a STRING match — so every STRING token is built with text None;
all other kinds always carry their matched text. -/
structure Token where
  kind : String
  text : Option String
deriving DecidableEq, Repr

/-- Token.upper method (`self.text.upper()`). It is only ever called on tokens
already checked to be IDENT (parse_statement, _match_keyword), whose text is never
None; the embedding totalises the unreachable None case with `.getD`. -/
def Token.upper (t : Token) : String := strUpper (t.text.getD "")

/-- Token text as Python interpolates it into error messages (`{tok.text!r}`
renders None as the word None). -/
def Token.textD (t : Token) : String := t.text.getD "None"

/-- Character class of the regex `[A-Za-z_]` (identifier start). -/
def isIdentStart (c : Char) : Bool := c.isAlpha || c = '_'

/-- Character class of the regex `[A-Za-z0-9_]` (identifier continuation). -/
def isIdentCont (c : Char) : Bool := c.isAlphanum || c = '_'

/-- One anchored attempt of _TOKEN_REGEX at the current position: the alternatives
WS, NUMBER, STRING, IDENT and the five punctuation marks, each greedy, tried in
order (their first characters are disjoint). Returns the recognised token (`none`
for WS, which tokenize discards) and the rest of the input; `none` overall when no
alternative matches — in particular at an unterminated quoted string. The STRING
branch consumes the quoted literal but stores text None, reproducing the source's
`inner = match.group(2)` (the NUMBER group, absent in a STRING match) instead of
the inner `([^']*)` content, which is group 4. -/
def lexOne : List Char → Option (Option Token × List Char)
  | [] => none
  | c :: cs =>
      if c.isWhitespace then
        some (none, cs.dropWhile Char.isWhitespace)
      else if c.isDigit then
        some (some (Token.mk "NUMBER" (some (String.mk (c :: cs.takeWhile Char.isDigit)))),
          cs.dropWhile Char.isDigit)
      else if c = '\'' then
        match cs.dropWhile (fun d => d != '\'') with
        | '\'' :: rest => some (some (Token.mk "STRING" none), rest)
        | _ => none
      else if isIdentStart c then
        some (some (Token.mk "IDENT" (some (String.mk (c :: cs.takeWhile isIdentCont)))),
          cs.dropWhile isIdentCont)
      else if c = '(' then some (some (Token.mk "LPAREN" (some "(")), cs)
      else if c = ')' then some (some (Token.mk "RPAREN" (some ")")), cs)
      else if c = ',' then some (some (Token.mk "COMMA" (some ",")), cs)
      else if c = '*' then some (some (Token.mk "STAR" (some "*")), cs)
      else if c = ';' then some (some (Token.mk "SEMICOLON" (some ";")), cs)
      else none

/-- Message of the tokenizer's SyntaxError, naming the scan position and the
offending character (Python: f-string over `pos` and `sql[pos]`). -/
def tokErrMsg (pos : Nat) (c : Char) : String :=
  "Unexpected character at position " ++ toString pos ++ ": " ++ toString c

/-- The while-loop of tokenize, fuelled: each successful `lexOne` consumes at least
one character, so `length + 1` fuel always suffices (`tokenizeAux_total` below);
`none` is returned only on fuel exhaustion and never reached from `tokenize`. -/
def tokenizeAux : Nat → Nat → List Char → Option (Except Err (List Token))
  | 0, _, _ => none
  | _ + 1, _, [] => some (.ok [])
  | fuel + 1, pos, c :: cs =>
      match lexOne (c :: cs) with
      | none => some (.error (.synErr (tokErrMsg pos c)))
      | some (tok?, rest) =>
          match tokenizeAux fuel (pos + (cs.length + 1 - rest.length)) rest with
          | none => none
          | some (.error e) => some (.error e)
          | some (.ok ts) =>
              some (.ok (match tok? with
                | none => ts
                | some t => t :: ts))

/-- tokenize (src/minidb/parser.py, lines 34-53): scan the whole input, discarding
whitespace; the `.getD` default is unreachable by `tokenizeAux_total`. -/
def tokenize (sql : String) : Except Err (List Token) :=
  (tokenizeAux (sql.toList.length + 1) 0 sql.toList).getD (.ok [])

/-! ## Parser (src/minidb/parser.py, lines 76-223)

`Parser` holds a token list and a cursor; the embedding threads the remaining
suffix of the token list instead of the cursor. -/

/-- Parser._match: consume one token of the given kind or raise SyntaxError. -/
def matchTok (kind : String) : List Token → Except Err (Token × List Token)
  | [] => .error (.synErr ("Expected " ++ kind ++ ", got end of input"))
  | t :: ts =>
      if t.kind = kind then .ok (t, ts)
      else .error (.synErr ("Expected " ++ kind ++ ", got " ++ t.kind
        ++ " (" ++ t.textD ++ ")"))

/-- Parser._match_keyword: consume an IDENT whose upper-cased text is the keyword. -/
def matchKeyword (keyword : String) : List Token → Except Err (Token × List Token)
  | [] => .error (.synErr ("Expected keyword " ++ keyword ++ ", got EOF"))
  | t :: ts =>
      if t.kind = "IDENT" ∧ t.upper = keyword then .ok (t, ts)
      else .error (.synErr ("Expected keyword " ++ keyword ++ ", got " ++ t.textD))

/-- Parser._optional: consume the next token when it has the given kind. -/
def optionalTok (kind : String) : List Token → Option Token × List Token
  | [] => (none, [])
  | t :: ts => if t.kind = kind then (some t, ts) else (none, t :: ts)

/-- Python int() on the digit run matched by the NUMBER pattern. -/
def pyInt (s : String) : Int :=
  Int.ofNat (s.toList.foldl (fun n c => n * 10 + (c.toNat - 48)) 0)

/-- Column-list loop of Parser._parse_create_table: IDENT IDENT pairs separated by
commas; the body runs at least once; an unknown type name propagates the
ValueError of ColumnType.from_sql. -/
def parseColumns : List Token → Except Err (List ColumnDef × List Token)
  | [] => .error (.synErr "Expected IDENT, got end of input")
  | t1 :: ts =>
      if t1.kind = "IDENT" then
        match ts with
        | [] => .error (.synErr "Expected IDENT, got end of input")
        | t2 :: ts2 =>
            if t2.kind = "IDENT" then
              match ColumnType.from_sql (t2.text.getD "") with
              | .error e => .error e
              | .ok ct =>
                  match ts2 with
                  | t3 :: ts3 =>
                      if t3.kind = "COMMA" then
                        match parseColumns ts3 with
                        | .error e => .error e
                        | .ok (cols, rest) =>
                            .ok (ColumnDef.mk (t1.text.getD "") ct true false :: cols, rest)
                      else .ok ([ColumnDef.mk (t1.text.getD "") ct true false], ts2)
                  | [] => .ok ([ColumnDef.mk (t1.text.getD "") ct true false], ts2)
            else .error (.synErr ("Expected IDENT, got " ++ t2.kind
              ++ " (" ++ t2.textD ++ ")"))
      else .error (.synErr ("Expected IDENT, got " ++ t1.kind
        ++ " (" ++ t1.textD ++ ")"))

/-- Value appended by _parse_insert for a STRING token: `values.append(tok.text)`
puts the token's text — a str, or the None every STRING token carries because of
the tokenizer's group(2) slip — straight into the value list, landing in the
int/str/bool/None value domain as text or null. -/
def strTokValue : Option String → Value
  | some s => Value.text s
  | none => Value.null

/-- Values loop of Parser._parse_insert: NUMBER or STRING literals separated by
commas; the body runs at least once. -/
def parseValues : List Token → Except Err (List Value × List Token)
  | [] => .error (.synErr "Unexpected end of input in VALUES list")
  | t :: ts =>
      match (if t.kind = "NUMBER" then .ok (Value.int (pyInt (t.text.getD "")))
             else if t.kind = "STRING" then .ok (strTokValue t.text)
             else .error (Err.synErr ("Expected NUMBER or STRING literal, got "
               ++ t.kind ++ " (" ++ t.textD ++ ")")) : Except Err Value) with
      | .error e => .error e
      | .ok v =>
          match ts with
          | t2 :: ts2 =>
              if t2.kind = "COMMA" then
                match parseValues ts2 with
                | .error e => .error e
                | .ok (vs, rest) => .ok (v :: vs, rest)
              else .ok ([v], ts)
          | [] => .ok ([v], ts)

/-- Column-name loop of Parser._parse_select: IDENTs separated by commas. -/
def parseSelectCols : List Token → Except Err (List String × List Token)
  | [] => .error (.synErr "Expected IDENT, got end of input")
  | t :: ts =>
      if t.kind = "IDENT" then
        match ts with
        | t2 :: ts2 =>
            if t2.kind = "COMMA" then
              match parseSelectCols ts2 with
              | .error e => .error e
              | .ok (cols, rest) => .ok (t.text.getD "" :: cols, rest)
            else .ok ([t.text.getD ""], ts)
        | [] => .ok ([t.text.getD ""], ts)
      else .error (.synErr ("Expected IDENT, got " ++ t.kind ++ " (" ++ t.textD ++ ")"))

/-- Parser._parse_create_table (src/minidb/parser.py, lines 129-154). -/
def parseCreateTable (ts0 : List Token) : Except Err (Statement × List Token) := do
  let (_, ts1) ← matchKeyword "CREATE" ts0
  let (_, ts2) ← matchKeyword "TABLE" ts1
  let (nameTok, ts3) ← matchTok "IDENT" ts2
  let (_, ts4) ← matchTok "LPAREN" ts3
  let (columns, ts5) ← parseColumns ts4
  let (_, ts6) ← matchTok "RPAREN" ts5
  let ts7 := (optionalTok "SEMICOLON" ts6).2
  .ok (Statement.createTable (nameTok.text.getD "") columns, ts7)

/-- Parser._parse_insert (src/minidb/parser.py, lines 156-186). -/
def parseInsert (ts0 : List Token) : Except Err (Statement × List Token) := do
  let (_, ts1) ← matchKeyword "INSERT" ts0
  let (_, ts2) ← matchKeyword "INTO" ts1
  let (tableTok, ts3) ← matchTok "IDENT" ts2
  let (_, ts4) ← matchKeyword "VALUES" ts3
  let (_, ts5) ← matchTok "LPAREN" ts4
  let (values, ts6) ← parseValues ts5
  let (_, ts7) ← matchTok "RPAREN" ts6
  let ts8 := (optionalTok "SEMICOLON" ts7).2
  .ok (Statement.insertInto (tableTok.text.getD "") values, ts8)

/-- Parser._parse_select (src/minidb/parser.py, lines 188-214). -/
def parseSelect (ts0 : List Token) : Except Err (Statement × List Token) := do
  let (_, ts1) ← matchKeyword "SELECT" ts0
  let (columns, ts2) ←
    (match ts1 with
     | [] => .error (.synErr "Unexpected end after SELECT")
     | t :: rest =>
         if t.kind = "STAR" then .ok ((none : Option (List String)), rest)
         else
           match parseSelectCols ts1 with
           | .error e => .error e
           | .ok (cols, rest') => .ok (some cols, rest') :
       Except Err (Option (List String) × List Token))
  let (_, ts3) ← matchKeyword "FROM" ts2
  let (tableTok, ts4) ← matchTok "IDENT" ts3
  let ts5 := (optionalTok "SEMICOLON" ts4).2
  .ok (Statement.select (tableTok.text.getD "") columns, ts5)

/-- Parser.parse_statement (src/minidb/parser.py, lines 115-127): dispatch on the
upper-cased text of a leading IDENT. -/
def parseStatement (ts : List Token) : Except Err (Statement × List Token) :=
  match ts with
  | [] => .error (.synErr "Empty input")
  | t :: _ =>
      if t.kind = "IDENT" ∧ t.upper = "CREATE" then parseCreateTable ts
      else if t.kind = "IDENT" ∧ t.upper = "INSERT" then parseInsert ts
      else if t.kind = "IDENT" ∧ t.upper = "SELECT" then parseSelect ts
      else .error (.synErr ("Unknown statement starting with " ++ t.textD))

/-- parse (src/minidb/parser.py, lines 216-223): tokenize, parse one statement,
and reject trailing tokens. -/
def parse (sql : String) : Except Err Statement := do
  let toks ← tokenize sql
  let (stmt, rest) ← parseStatement toks
  match rest with
  | [] => .ok stmt
  | extra :: _ => .error (.synErr ("Unexpected token after statement: " ++ extra.textD))

/-! ## Specification vocabulary -/

/-- Spec section 3 row invariant: the row binds exactly one value per declared
column, in declared column order (its key sequence is the declared name sequence). -/
abbrev rowMatchesCols (r : Row) (cols : List ColumnDef) : Prop :=
  dkeys r = cols.map ColumnDef.name

/-- Spec section 3 database invariant: every row of every table matches that
table's declared columns. -/
abbrev DbInv (db : Database) : Prop :=
  ∀ kt ∈ db, ∀ r ∈ kt.2.rows, rowMatchesCols r kt.2.columns

/-- Strengthened induction invariant: keys are the lower-cased table names, every
table's declared column names are pairwise distinct, and every row matches its
table's columns. -/
def StrongInv (db : Database) : Prop :=
  ∀ kt ∈ db, kt.1 = strLower kt.2.name
    ∧ (kt.2.columns.map ColumnDef.name).Nodup
    ∧ ∀ r ∈ kt.2.rows, rowMatchesCols r kt.2.columns

/-- Decidable side condition of the amended C6: a CREATE TABLE statement declares
pairwise-distinct column names (trivially true for the other statements). -/
def createdNodupB : Statement → Bool
  | .createTable _ cols => decide ((cols.map ColumnDef.name).Nodup)
  | _ => true

/-- Claim C1's driver: a sequence of inserts into one table, each through
Database.insert, stopping at the first failure. -/
def insertSeq : Database → String → List (List Value) → Except Err Database
  | db, _, [] => .ok db
  | db, table_name, vs :: valss =>
      match dbInsert db table_name vs with
      | .error e => .error e
      | .ok db' => insertSeq db' table_name valss

/-- Sample schema used by the concrete witnesses. -/
def sampleCols : List ColumnDef :=
  [ColumnDef.mk "a" ColumnType.INT true false,
   ColumnDef.mk "b" ColumnType.TEXT true false]

/-- Sample stored row over `sampleCols`. -/
def sampleRow : Row := [("a", Value.int 1), ("b", Value.text "x")]

/-- Sample empty table with original-case name `T`. -/
def sampleTable : Table := Table.mk "T" sampleCols []

/-- Sample table holding one row. -/
def sampleTableR : Table := Table.mk "T" sampleCols [sampleRow]

/-- Sample database keyed by the lower-cased table name. -/
def sampleDb : Database := [("t", sampleTable)]

/-- Sample database whose table holds one row. -/
def sampleDbR : Database := [("t", sampleTableR)]

end MiniDB

deriving instance DecidableEq for Except

namespace MiniDB


/-! ## Dictionary lemmas -/

section DictLemmas

variable {β : Type}

theorem dkeys_nil : dkeys ([] : List (String × β)) = [] := rfl

theorem dkeys_cons (p : String × β) (l : List (String × β)) :
    dkeys (p :: l) = p.1 :: dkeys l := rfl

theorem dkeys_append (l1 l2 : List (String × β)) :
    dkeys (l1 ++ l2) = dkeys l1 ++ dkeys l2 := by
  simp [dkeys]

theorem alookup_dictInsert_self (l : List (String × β)) (k : String) (v : β) :
    alookup (dictInsert l k v) k = some v := by
  induction l with
  | nil => simp [dictInsert, alookup]
  | cons p rest ih =>
      obtain ⟨k', u⟩ := p
      by_cases h : k' = k
      · simp [dictInsert, h, alookup]
      · simp [dictInsert, h, alookup, ih]

theorem alookup_dictInsert_ne (l : List (String × β)) (k k' : String) (v : β)
    (h : k' ≠ k) : alookup (dictInsert l k v) k' = alookup l k' := by
  induction l with
  | nil => simp [dictInsert, alookup, Ne.symm h]
  | cons p rest ih =>
      obtain ⟨k1, u⟩ := p
      by_cases h1 : k1 = k
      · subst h1
        simp [dictInsert, alookup, Ne.symm h]
      · simp [dictInsert, h1, alookup, ih]

theorem mem_dkeys_dictInsert (l : List (String × β)) (k m : String) (v : β) :
    m ∈ dkeys (dictInsert l k v) ↔ m ∈ dkeys l ∨ m = k := by
  induction l with
  | nil => simp [dictInsert, dkeys]
  | cons p rest ih =>
      obtain ⟨k1, u⟩ := p
      by_cases h1 : k1 = k
      · subst h1
        simp [dictInsert, dkeys_cons]
        tauto
      · simp [dictInsert, h1, dkeys_cons, ih]
        tauto

theorem dkeys_dictInsert_of_mem (l : List (String × β)) (k : String) (v : β)
    (h : k ∈ dkeys l) : dkeys (dictInsert l k v) = dkeys l := by
  induction l with
  | nil => exact absurd h (by simp [dkeys])
  | cons p rest ih =>
      obtain ⟨k1, u⟩ := p
      by_cases h1 : k1 = k
      · subst h1
        simp [dictInsert, dkeys_cons]
      · have h2 : k ∈ dkeys rest := by
          rw [dkeys_cons] at h
          rcases List.mem_cons.1 h with hh | hh
          · exact absurd hh.symm h1
          · exact hh
        simp [dictInsert, h1, dkeys_cons, ih h2]

theorem dictInsert_of_not_mem (l : List (String × β)) (k : String) (v : β)
    (h : k ∉ dkeys l) : dictInsert l k v = l ++ [(k, v)] := by
  induction l with
  | nil => rfl
  | cons p rest ih =>
      obtain ⟨k1, u⟩ := p
      rw [dkeys_cons] at h
      have h1 : ¬ k1 = k := by
        intro hh
        subst hh
        exact h (List.mem_cons_self _ _)
      have h2 : k ∉ dkeys rest := fun hh => h (List.mem_cons_of_mem _ hh)
      simp [dictInsert, h1, ih h2]

theorem mem_dictInsert (l : List (String × β)) (k : String) (v : β)
    (p : String × β) (h : p ∈ dictInsert l k v) : p ∈ l ∨ p = (k, v) := by
  induction l with
  | nil => simpa [dictInsert] using h
  | cons q rest ih =>
      obtain ⟨k1, u⟩ := q
      by_cases h1 : k1 = k
      · subst h1
        simp only [dictInsert, if_pos rfl] at h
        rcases List.mem_cons.1 h with hh | hh
        · exact Or.inr hh
        · exact Or.inl (List.mem_cons_of_mem _ hh)
      · simp only [dictInsert, if_neg h1] at h
        rcases List.mem_cons.1 h with hh | hh
        · exact Or.inl (by simp [hh])
        · rcases ih hh with h2 | h2
          · exact Or.inl (List.mem_cons_of_mem _ h2)
          · exact Or.inr h2

theorem alookup_isSome_iff (l : List (String × β)) (k : String) :
    (alookup l k).isSome ↔ k ∈ dkeys l := by
  induction l with
  | nil => simp [alookup, dkeys]
  | cons p rest ih =>
      obtain ⟨k1, u⟩ := p
      by_cases h1 : k1 = k
      · subst h1
        simp [alookup, dkeys_cons]
      · simp [alookup, h1, dkeys_cons, ih, Ne.symm h1]

theorem alookup_eq_some_mem (l : List (String × β)) (k : String) (v : β)
    (h : alookup l k = some v) : (k, v) ∈ l := by
  induction l with
  | nil => simp [alookup] at h
  | cons p rest ih =>
      obtain ⟨k1, u⟩ := p
      by_cases h1 : k1 = k
      · subst h1
        have h' : u = v := by simpa [alookup] using h
        subst h'
        exact List.mem_cons_self _ _
      · simp only [alookup, if_neg h1] at h
        exact List.mem_cons_of_mem _ (ih h)

theorem alookup_none_append (l l2 : List (String × β)) (k : String)
    (h : alookup l k = none) : alookup (l ++ l2) k = alookup l2 k := by
  induction l with
  | nil => simp
  | cons p rest ih =>
      obtain ⟨k1, u⟩ := p
      by_cases h1 : k1 = k
      · simp [alookup, h1] at h
      · simp only [alookup, if_neg h1, List.cons_append] at h ⊢
        exact ih h

end DictLemmas

/-! ## Lemmas on repeated dict assignment (foldIns) -/

section FoldInsLemmas

variable {α β : Type} (f : α → String) (g : α → β)

theorem foldIns_nil (acc : List (String × β)) : foldIns f g acc [] = acc := rfl

theorem foldIns_cons (acc : List (String × β)) (x : α) (xs : List α) :
    foldIns f g acc (x :: xs) = foldIns f g (dictInsert acc (f x) (g x)) xs := rfl

theorem mem_dkeys_foldIns (acc : List (String × β)) (xs : List α) (k : String) :
    k ∈ dkeys (foldIns f g acc xs) ↔ k ∈ dkeys acc ∨ k ∈ xs.map f := by
  induction xs generalizing acc with
  | nil => simp [foldIns_nil]
  | cons x xs ih =>
      rw [foldIns_cons, ih]
      simp [mem_dkeys_dictInsert]
      tauto

theorem nodup_dkeys_foldIns (acc : List (String × β)) (xs : List α)
    (h : (dkeys acc).Nodup) : (dkeys (foldIns f g acc xs)).Nodup := by
  induction xs generalizing acc with
  | nil => simpa [foldIns_nil] using h
  | cons x xs ih =>
      rw [foldIns_cons]
      apply ih
      by_cases hm : f x ∈ dkeys acc
      · rwa [dkeys_dictInsert_of_mem _ _ _ hm]
      · rw [dictInsert_of_not_mem _ _ _ hm, dkeys_append]
        rw [List.nodup_append]
        refine ⟨h, List.nodup_singleton _, ?_⟩
        intro a ha hb
        rw [dkeys_cons, dkeys_nil, List.mem_singleton] at hb
        subst hb
        exact hm ha

theorem foldIns_of_nodup (acc : List (String × β)) (xs : List α)
    (hn : (xs.map f).Nodup) (hd : ∀ x ∈ xs, f x ∉ dkeys acc) :
    foldIns f g acc xs = acc ++ xs.map (fun x => (f x, g x)) := by
  induction xs generalizing acc with
  | nil => simp [foldIns_nil]
  | cons x xs ih =>
      rw [List.map_cons, List.nodup_cons] at hn
      have hx : f x ∉ dkeys acc := hd x (List.mem_cons_self _ _)
      rw [foldIns_cons, dictInsert_of_not_mem _ _ _ hx]
      have hdd : ∀ y ∈ xs, f y ∉ dkeys (acc ++ [(f x, g x)]) := by
        intro y hy hmem
        rw [dkeys_append] at hmem
        rcases List.mem_append.1 hmem with hh | hh
        · exact hd y (List.mem_cons_of_mem _ hy) hh
        · rw [dkeys_cons, dkeys_nil, List.mem_singleton] at hh
          have hyx : f y = f x := hh
          exact hn.1 (hyx ▸ List.mem_map_of_mem f hy)
      rw [ih (acc ++ [(f x, g x)]) hn.2 hdd]
      simp

theorem alookup_foldIns_of_not_mem (acc : List (String × β)) (xs : List α)
    (k : String) (h : k ∉ xs.map f) :
    alookup (foldIns f g acc xs) k = alookup acc k := by
  induction xs generalizing acc with
  | nil => simp [foldIns_nil]
  | cons x xs ih =>
      simp only [List.map_cons, List.mem_cons, not_or] at h
      rw [foldIns_cons, ih _ h.2, alookup_dictInsert_ne _ _ _ _ h.1]

theorem alookup_foldIns_of_mem (acc : List (String × β)) (xs : List α)
    (k : String) (v : β) (hk : k ∈ xs.map f) (hv : ∀ x ∈ xs, f x = k → g x = v) :
    alookup (foldIns f g acc xs) k = some v := by
  induction xs generalizing acc with
  | nil => simp at hk
  | cons x xs ih =>
      rw [foldIns_cons]
      by_cases hm : k ∈ xs.map f
      · exact ih _ hm (fun y hy hfy => hv y (List.mem_cons_of_mem _ hy) hfy)
      · simp only [List.map_cons, List.mem_cons] at hk
        rcases hk with hk | hk
        · subst hk
          rw [alookup_foldIns_of_not_mem _ _ _ _ _ hm, alookup_dictInsert_self,
            hv x (List.mem_cons_self _ _) rfl]
        · exact absurd hk hm

end FoldInsLemmas

/-! ## Rows built by insert_row and select -/

theorem rowOf_eq_foldIns (cols : List ColumnDef) (vals : List Value) :
    rowOf cols vals
      = foldIns (fun cv => cv.1.name) (fun cv => cv.2) [] (cols.zip vals) := rfl

theorem projRow_eq_foldIns (column_names : List String) (row : Row) :
    projRow column_names row
      = foldIns (fun c => c) (fun c => (alookup row c).getD Value.null)
          [] column_names := rfl

theorem map_name_zip (cols : List ColumnDef) (vals : List Value)
    (hl : vals.length = cols.length) :
    (cols.zip vals).map (fun cv => cv.1.name) = cols.map ColumnDef.name := by
  rw [show (fun cv : ColumnDef × Value => cv.1.name)
      = (ColumnDef.name ∘ Prod.fst) from rfl, ← List.map_map,
    List.map_fst_zip _ _ (le_of_eq hl.symm)]

theorem dkeys_rowOf_of_nodup (cols : List ColumnDef) (vals : List Value)
    (hn : (cols.map ColumnDef.name).Nodup) (hl : vals.length = cols.length) :
    dkeys (rowOf cols vals) = cols.map ColumnDef.name := by
  rw [rowOf_eq_foldIns,
    foldIns_of_nodup _ _ _ _ (by rw [map_name_zip _ _ hl]; exact hn)
      (by simp [dkeys]),
    List.nil_append]
  have h1 : dkeys ((cols.zip vals).map fun x => (x.1.name, x.2))
      = (cols.zip vals).map (fun cv => cv.1.name) := by
    simp [dkeys, List.map_map]
  rw [h1, map_name_zip _ _ hl]

theorem mem_dkeys_rowOf (cols : List ColumnDef) (vals : List Value)
    (hl : vals.length = cols.length) (k : String) :
    k ∈ dkeys (rowOf cols vals) ↔ k ∈ cols.map ColumnDef.name := by
  rw [rowOf_eq_foldIns, mem_dkeys_foldIns, map_name_zip _ _ hl]
  simp [dkeys]

/-! ## Tokenizer lemmas -/

theorem dropWhile_length_le {α : Type} (p : α → Bool) (l : List α) :
    (l.dropWhile p).length ≤ l.length := by
  induction l with
  | nil => simp
  | cons a l ih =>
      by_cases h : p a
      · simp only [List.dropWhile_cons, h, if_true]
        exact Nat.le_succ_of_le ih
      · simp [List.dropWhile_cons, h]

theorem lexOne_length (l : List Char) (o : Option Token) (rest : List Char)
    (h : lexOne l = some (o, rest)) : rest.length < l.length := by
  match l with
  | [] => simp [lexOne] at h
  | c :: cs =>
      simp only [lexOne] at h
      split_ifs at h with h1 h2 h3 h4 h5 h6 h7 h8 h9
      · simp only [Option.some.injEq, Prod.mk.injEq] at h
        rw [← h.2]
        simp only [List.length_cons]
        exact Nat.lt_succ_of_le (dropWhile_length_le _ _)
      · simp only [Option.some.injEq, Prod.mk.injEq] at h
        rw [← h.2]
        simp only [List.length_cons]
        exact Nat.lt_succ_of_le (dropWhile_length_le _ _)
      · split at h
        · simp only [Option.some.injEq, Prod.mk.injEq] at h
          rename_i rest2 heq
          have hlen : (cs.dropWhile (fun d => d != '\'')).length = rest2.length + 1 := by
            rw [heq]
            rfl
          have hle := dropWhile_length_le (fun d => d != '\'') cs
          rw [← h.2]
          simp only [List.length_cons]
          omega
        · simp at h
      · simp only [Option.some.injEq, Prod.mk.injEq] at h
        rw [← h.2]
        simp only [List.length_cons]
        exact Nat.lt_succ_of_le (dropWhile_length_le _ _)
      all_goals
        simp only [Option.some.injEq, Prod.mk.injEq] at h
        rw [← h.2]
        simp

theorem tokenizeAux_total : ∀ (fuel pos : Nat) (l : List Char),
    l.length < fuel → (tokenizeAux fuel pos l).isSome := by
  intro fuel
  induction fuel with
  | zero => exact fun pos l h => absurd h (Nat.not_lt_zero _)
  | succ fuel ih =>
      intro pos l h
      match l with
      | [] => simp [tokenizeAux]
      | c :: cs =>
          simp only [tokenizeAux]
          match hx : lexOne (c :: cs) with
          | none => simp
          | some (tok?, rest) =>
              dsimp only
              have hrest := lexOne_length _ _ _ hx
              have hlt : rest.length < fuel := by
                simp only [List.length_cons] at hrest h
                omega
              have hs := ih (pos + (cs.length + 1 - rest.length)) rest hlt
              cases hy : tokenizeAux fuel (pos + (cs.length + 1 - rest.length)) rest with
              | none => rw [hy] at hs; simp at hs
              | some r => cases r <;> simp

theorem lexOne_not_ws (l : List Char) (t : Token) (rest : List Char)
    (h : lexOne l = some (some t, rest)) : t.kind ≠ "WS" := by
  match l with
  | [] => simp [lexOne] at h
  | c :: cs =>
      simp only [lexOne] at h
      split_ifs at h with h1 h2 h3 h4 h5 h6 h7 h8 h9
      · simp at h
      · simp only [Option.some.injEq, Prod.mk.injEq] at h
        rw [← h.1]
        simp
      · split at h
        · simp only [Option.some.injEq, Prod.mk.injEq] at h
          rw [← h.1]
          simp
        · simp at h
      all_goals
        simp only [Option.some.injEq, Prod.mk.injEq] at h
        rw [← h.1]
        simp

theorem tokenizeAux_no_ws : ∀ (fuel pos : Nat) (l : List Char) (ts : List Token),
    tokenizeAux fuel pos l = some (.ok ts) → ∀ t ∈ ts, t.kind ≠ "WS" := by
  intro fuel
  induction fuel with
  | zero => intro pos l ts h; simp [tokenizeAux] at h
  | succ fuel ih =>
      intro pos l ts h
      match l with
      | [] =>
          simp [tokenizeAux] at h
          subst h
          simp
      | c :: cs =>
          simp only [tokenizeAux] at h
          match hx : lexOne (c :: cs) with
          | none => rw [hx] at h; simp at h
          | some (tok?, rest) =>
              rw [hx] at h
              dsimp only at h
              match hy : tokenizeAux fuel (pos + (cs.length + 1 - rest.length)) rest with
              | none => rw [hy] at h; simp at h
              | some (.error e) => rw [hy] at h; simp at h
              | some (.ok ts') =>
                  rw [hy] at h
                  simp only [Option.some.injEq, Except.ok.injEq] at h
                  intro t ht
                  rw [← h] at ht
                  match tok? with
                  | none => exact ih _ _ _ hy t ht
                  | some tk =>
                      rcases List.mem_cons.1 ht with rfl | hmem
                      · exact lexOne_not_ws _ _ _ hx
                      · exact ih _ _ _ hy t hmem

/-! ## Claim theorems -/

/-- C8: wherever the scan reaches a position whose character starts no lexical
pattern, tokenization fails with a SyntaxError built from that position and
character; an unterminated single-quoted string fails exactly this way (at the
opening quote), a no-pattern character after consumed tokens is reported at its
byte offset, and the empty input tokenizes to the empty token sequence. -/
theorem spec_c8_tokenizer_error :
    (∀ (fuel pos : Nat) (c : Char) (l : List Char), lexOne (c :: l) = none →
      tokenizeAux (fuel + 1) pos (c :: l)
        = some (.error (.synErr (tokErrMsg pos c))))
    ∧ tokenize "'abc" = .error (.synErr (tokErrMsg 0 '\''))
    ∧ tokenize "SELECT @x" = .error (.synErr (tokErrMsg 7 '@'))
    ∧ tokenize "" = .ok [] := by
  refine ⟨?_, by decide, by decide, by decide⟩
  intro fuel pos c l h
  simp [tokenizeAux, h]

/-- Witness for C8: the no-pattern case at a concrete character. -/
theorem spec_c8_tokenizer_error_witness :
    tokenizeAux 1 0 ['@'] = some (.error (.synErr (tokErrMsg 0 '@'))) :=
  spec_c8_tokenizer_error.1 0 0 '@' [] (by decide)

/-- C9 (code bug): the source intends string tokens to carry the quoted content
with the quotes stripped (the comment at parser.py lines 47-49 says so), but
line 49 reads `match.group(2)` — counting capturing groups by opening
parenthesis, group 2 is the NUMBER pattern, which never participates in a STRING
match — instead of group 4, the inner `([^']*)` content. Every single-quoted
string token therefore carries None instead of the quoted content, and an
inserted string literal reaches the table as null; the rest of the claim holds:
tokens appear in source order with whitespace omitted. -/
theorem spec_c9_string_token_bug :
    tokenize "x 'ab c' y"
      = .ok [Token.mk "IDENT" (some "x"), Token.mk "STRING" none,
          Token.mk "IDENT" (some "y")]
    ∧ tokenize "SELECT * FROM t;"
      = .ok [Token.mk "IDENT" (some "SELECT"), Token.mk "STAR" (some "*"),
          Token.mk "IDENT" (some "FROM"), Token.mk "IDENT" (some "t"),
          Token.mk "SEMICOLON" (some ";")]
    ∧ parse "INSERT INTO t VALUES ('Alice')"
      = .ok (.insertInto "t" [Value.null]) :=
  ⟨by decide, by decide, by decide⟩

/-- C5 counterexample: a CREATE TABLE with the unknown column type FLOAT fails,
but with the ValueError of ColumnType.from_sql, not with the SyntaxError kind the
tokenizer and parser raise for other malformed input. -/
theorem spec_c5_counterexample :
    parse "CREATE TABLE t (a FLOAT)"
      = .error (.valErr "Unsupported column type: FLOAT")
    ∧ isSynErr (parse "CREATE TABLE t (a FLOAT)") = false :=
  ⟨by decide, by decide⟩

/-- C5 amended: a column type keyword that is not INT, TEXT or BOOL
(case-insensitively) makes parsing fail, but with a ValueError (raised by
ColumnType.from_sql and propagated by the parser), a different error kind from
the SyntaxError the tokenizer and parser raise for other malformed input. -/
theorem spec_c5_value_error :
    (∀ s : String, strUpper s ≠ "INT" → strUpper s ≠ "TEXT" →
      strUpper s ≠ "BOOL" →
      ColumnType.from_sql s = .error (.valErr ("Unsupported column type: " ++ s)))
    ∧ parse "CREATE TABLE t (a FLOAT)"
        = .error (.valErr "Unsupported column type: FLOAT") := by
  refine ⟨?_, by decide⟩
  intro s h1 h2 h3
  simp [ColumnType.from_sql, h1, h2, h3]

/-- Witness for C5's amended clause at the concrete keyword FLOAT. -/
theorem spec_c5_value_error_witness :
    ColumnType.from_sql "FLOAT" = .error (.valErr "Unsupported column type: FLOAT") :=
  spec_c5_value_error.1 "FLOAT" (by decide) (by decide) (by decide)

/-- C10: the parser's name positions accept any IDENT token regardless of its
text (keywords are not reserved), and the concrete statement
CREATE TABLE select (from INT) parses, the table can be inserted into, and
selecting column `from` from table `select` returns the inserted row. -/
theorem spec_c10_keywords_not_reserved :
    (∀ (t : Token) (ts : List Token), t.kind = "IDENT" →
      matchTok "IDENT" (t :: ts) = .ok (t, ts))
    ∧ parse "CREATE TABLE select (from INT)"
        = .ok (.createTable "select" [ColumnDef.mk "from" .INT true false])
    ∧ (do
        let s1 ← parse "CREATE TABLE select (from INT)"
        let s2 ← parse "INSERT INTO select VALUES (42)"
        let s3 ← parse "SELECT from FROM select"
        let (db1, _) ← execStmt [] s1
        let (db2, _) ← execStmt db1 s2
        let (_, res) ← execStmt db2 s3
        pure res : Except Err (Option (List Row)))
        = .ok (some [[("from", Value.int 42)]]) := by
  refine ⟨?_, by decide, by decide⟩
  intro t ts h
  simp [matchTok, h]

/-- Witness for C10's universal clause at a keyword-spelled identifier. -/
theorem spec_c10_keywords_not_reserved_witness :
    matchTok "IDENT" [Token.mk "IDENT" (some "select")]
      = .ok (Token.mk "IDENT" (some "select"), []) :=
  spec_c10_keywords_not_reserved.1 (Token.mk "IDENT" (some "select")) [] rfl

/-! ## Execution unfolding lemmas -/

theorem dbInsert_unfold (db : Database) (tn : String) (vs : List Value) :
    dbInsert db tn vs
      = match get_table db tn with
        | .error e => .error e
        | .ok t =>
            match t.insert_row vs with
            | .error e => .error e
            | .ok t' => .ok (dictInsert db (strLower tn) t') := by
  rfl

theorem step_insert_eq (db : Database) (tn : String) (vs : List Value) :
    step db (.insertInto tn vs)
      = match dbInsert db tn vs with
        | .ok db' => db'
        | .error _ => db := by
  unfold step execStmt
  dsimp only
  cases dbInsert db tn vs <;> rfl

theorem step_create_eq (db : Database) (name : String) (cols : List ColumnDef) :
    step db (.createTable name cols)
      = match create_table db name cols with
        | .ok db' => db'
        | .error _ => db := by
  unfold step execStmt
  dsimp only
  cases create_table db name cols <;> rfl

theorem step_select_eq (db : Database) (tn : String) (cols : Option (List String)) :
    step db (.select tn cols) = db := by
  unfold step execStmt
  dsimp only
  cases dbSelect db tn cols <;> rfl

/-- C2: against an existing table, insert succeeds exactly when the value count
equals the declared column count; on success the database is updated at the
table's key with exactly one row — the positional zip of columns and values —
appended at the end of the row sequence, and on a mismatch a ValueError is
raised and the step leaves the database completely unchanged. -/
theorem spec_c2_insert (db : Database) (table_name : String) (values : List Value)
    (t : Table) (h : get_table db table_name = .ok t) :
    ((∃ db', dbInsert db table_name values = .ok db')
        ↔ values.length = t.columns.length)
    ∧ (if values.length = t.columns.length then
        dbInsert db table_name values
          = .ok (dictInsert db (strLower table_name)
              (Table.mk t.name t.columns (t.rows ++ [rowOf t.columns values])))
      else
        (∃ msg, dbInsert db table_name values = .error (.valErr msg))
        ∧ step db (.insertInto table_name values) = db) := by
  by_cases hlen : values.length = t.columns.length
  · have hok : dbInsert db table_name values
        = .ok (dictInsert db (strLower table_name)
            (Table.mk t.name t.columns (t.rows ++ [rowOf t.columns values]))) := by
      rw [dbInsert_unfold, h]
      simp [Table.insert_row, hlen]
    refine ⟨⟨fun _ => hlen, fun _ => ⟨_, hok⟩⟩, ?_⟩
    simp [hlen, hok]
  · have herr : dbInsert db table_name values
        = .error (.valErr ("Expected " ++ toString t.columns.length
            ++ " values, got " ++ toString values.length)) := by
      rw [dbInsert_unfold, h]
      simp [Table.insert_row, hlen]
    constructor
    · constructor
      · rintro ⟨db', hdb'⟩
        rw [herr] at hdb'
        simp at hdb'
      · exact fun hh => absurd hh hlen
    · simp only [if_neg hlen]
      refine ⟨⟨_, herr⟩, ?_⟩
      rw [step_insert_eq, herr]

/-- Witness for C2 at a concrete database, table and value list. -/
theorem spec_c2_insert_witness :
    ((∃ db', dbInsert sampleDb "T" [Value.int 1, Value.text "x"] = .ok db')
        ↔ [Value.int 1, Value.text "x"].length = sampleTable.columns.length)
    ∧ (if [Value.int 1, Value.text "x"].length = sampleTable.columns.length then
        dbInsert sampleDb "T" [Value.int 1, Value.text "x"]
          = .ok (dictInsert sampleDb (strLower "T")
              (Table.mk sampleTable.name sampleTable.columns
                (sampleTable.rows
                  ++ [rowOf sampleTable.columns [Value.int 1, Value.text "x"]])))
      else
        (∃ msg, dbInsert sampleDb "T" [Value.int 1, Value.text "x"]
            = .error (.valErr msg))
        ∧ step sampleDb (.insertInto "T" [Value.int 1, Value.text "x"]) = sampleDb) :=
  spec_c2_insert sampleDb "T" [Value.int 1, Value.text "x"] sampleTable (by decide)

/-- C3: select with an explicit column list fails exactly when some requested
name is not among the declared column names; when it fails the error carries the
filter of all requested names that are missing — a list whose members are exactly
the requested-and-missing names, so the complete set is reported; select with no
column list never fails and returns every stored row in insertion order. -/
theorem spec_c3_select (t : Table) (names : List String) (n : String) :
    ((∃ e, t.select (some names) = .error e)
        ↔ ∃ m ∈ names, m ∉ t.column_names)
    ∧ (t.select (some names) = .ok (t.rows.map (projRow names))
        ∨ t.select (some names)
            = .error (.unknownColumns
                (names.filter (fun c => !(t.column_names.contains c)))))
    ∧ (n ∈ names.filter (fun c => !(t.column_names.contains c))
        ↔ (n ∈ names ∧ n ∉ t.column_names))
    ∧ t.select none = .ok t.rows := by
  have hmem : ∀ m : String,
      (m ∈ names.filter (fun c => !(t.column_names.contains c))
        ↔ (m ∈ names ∧ m ∉ t.column_names)) := by
    intro m
    simp [List.mem_filter, List.elem_iff]
  by_cases hempty : names.filter (fun c => !(t.column_names.contains c)) = []
  · have hsel : t.select (some names) = .ok (t.rows.map (projRow names)) := by
      simp only [Table.select]
      rw [hempty]
      rfl
    refine ⟨?_, Or.inl hsel, hmem n, rfl⟩
    constructor
    · rintro ⟨e, he⟩
      rw [hsel] at he
      simp at he
    · rintro ⟨m, hm, hnot⟩
      have hf : m ∈ names.filter (fun c => !(t.column_names.contains c)) :=
        (hmem m).2 ⟨hm, hnot⟩
      rw [hempty] at hf
      simp at hf
  · have hsel : t.select (some names)
        = .error (.unknownColumns
            (names.filter (fun c => !(t.column_names.contains c)))) := by
      simp only [Table.select]
      rw [List.isEmpty_eq_false.mpr hempty]
      rfl
    refine ⟨?_, Or.inr hsel, hmem n, rfl⟩
    constructor
    · intro _
      rcases List.exists_mem_of_ne_nil _ hempty with ⟨m, hm⟩
      exact ⟨m, ((hmem m).1 hm).1, ((hmem m).1 hm).2⟩
    · intro _
      exact ⟨_, hsel⟩

/-- C7: when a select's explicit column list repeats a name (all requested names
existing), the select succeeds, and in each projected row the repeated name
appears exactly once among the keys — the duplicates collapse because the row is
a plain mapping — bound to the row's stored value for that column. -/
theorem spec_c7_duplicate_select (t : Table) (names : List String) (n : String)
    (row : Row) (v : Value)
    (hall : ∀ m ∈ names, m ∈ t.column_names)
    (hn : n ∈ names) (_hrow : row ∈ t.rows) (hv : alookup row n = some v) :
    t.select (some names) = .ok (t.rows.map (projRow names))
    ∧ (dkeys (projRow names row)).count n = 1
    ∧ alookup (projRow names row) n = some v := by
  have hempty : names.filter (fun c => !(t.column_names.contains c)) = [] := by
    rw [List.filter_eq_nil_iff]
    intro a ha
    simp [List.elem_iff]
    exact hall a ha
  have hsel : t.select (some names) = .ok (t.rows.map (projRow names)) := by
    simp only [Table.select]
    rw [hempty]
    rfl
  have hnodup : (dkeys (projRow names row)).Nodup := by
    rw [projRow_eq_foldIns]
    exact nodup_dkeys_foldIns _ _ _ _ (by simp [dkeys])
  have hmemk : n ∈ dkeys (projRow names row) := by
    rw [projRow_eq_foldIns]
    exact (mem_dkeys_foldIns _ _ _ _ _).2 (Or.inr (by simpa using hn))
  refine ⟨hsel, List.count_eq_one_of_mem hnodup hmemk, ?_⟩
  rw [projRow_eq_foldIns,
    alookup_foldIns_of_mem _ _ _ _ n ((alookup row n).getD Value.null)
      (by simpa using hn) (fun x hx hfx => by rw [hfx]), hv]
  rfl

/-- Witness for C7: selecting the duplicated list [a, a] from the one-row sample
table. -/
theorem spec_c7_duplicate_select_witness :
    sampleTableR.select (some ["a", "a"])
        = .ok (sampleTableR.rows.map (projRow ["a", "a"]))
    ∧ (dkeys (projRow ["a", "a"] sampleRow)).count "a" = 1
    ∧ alookup (projRow ["a", "a"] sampleRow) "a" = some (Value.int 1) :=
  spec_c7_duplicate_select sampleTableR ["a", "a"] "a" sampleRow (Value.int 1)
    (by decide) (by decide) (by decide) (by decide)

/-- C4: on a database whose keys are the lower-cased table names, create_table
succeeds exactly when no stored table's name matches case-insensitively; a
collision raises ValueError and the step leaves the database unchanged; success
appends the new empty table under the lower-cased key with the original-case
name, and get_table then finds it under any casing of the name. -/
theorem spec_c4_create_table (db : Database) (name : String)
    (cols : List ColumnDef) (m : String)
    (hkeys : ∀ kt ∈ db, kt.1 = strLower kt.2.name)
    (hm : strLower m = strLower name) :
    ((∃ db', create_table db name cols = .ok db')
        ↔ ¬ ∃ kt ∈ db, strLower kt.2.name = strLower name)
    ∧ (if (alookup db (strLower name)).isSome then
        create_table db name cols
          = .error (.valErr ("Table " ++ name ++ " already exists"))
        ∧ step db (.createTable name cols) = db
      else
        create_table db name cols
          = .ok (db ++ [(strLower name, Table.mk name cols [])])
        ∧ get_table (db ++ [(strLower name, Table.mk name cols [])]) m
            = .ok (Table.mk name cols [])) := by
  have hmemiff : (alookup db (strLower name)).isSome = true
      ↔ ∃ kt ∈ db, strLower kt.2.name = strLower name := by
    rw [alookup_isSome_iff]
    constructor
    · intro hk
      rcases List.mem_map.1 hk with ⟨kt, hkt, hfst⟩
      exact ⟨kt, hkt, by rw [← hkeys kt hkt, hfst]⟩
    · rintro ⟨kt, hkt, hlow⟩
      have hk1 : kt.1 = strLower name := by rw [hkeys kt hkt, hlow]
      exact hk1 ▸ List.mem_map_of_mem Prod.fst hkt
  by_cases hex : (alookup db (strLower name)).isSome
  · have hcr : create_table db name cols
        = .error (.valErr ("Table " ++ name ++ " already exists")) := by
      simp [create_table, hex]
    refine ⟨⟨?_, ?_⟩, ?_⟩
    · rintro ⟨db', hdb'⟩
      rw [hcr] at hdb'
      simp at hdb'
    · intro hno
      exact absurd (hmemiff.1 hex) hno
    · simp only [if_pos hex]
      exact ⟨hcr, by rw [step_create_eq, hcr]⟩
  · have hnotmem : strLower name ∉ dkeys db := by
      rw [← alookup_isSome_iff]
      simpa using hex
    have hnone : alookup db (strLower name) = none := by
      cases ha : alookup db (strLower name) with
      | none => rfl
      | some t => rw [ha] at hex; simp at hex
    have hcr : create_table db name cols
        = .ok (db ++ [(strLower name, Table.mk name cols [])]) := by
      simp [create_table, hex, dictInsert_of_not_mem _ _ _ hnotmem]
    refine ⟨⟨?_, ?_⟩, ?_⟩
    · intro _ hcontra
      exact hex (hmemiff.2 hcontra)
    · intro _
      exact ⟨_, hcr⟩
    · simp only [if_neg hex]
      refine ⟨hcr, ?_⟩
      simp only [get_table]
      rw [hm, alookup_none_append db _ (strLower name) hnone]
      simp [alookup]

/-- Witness for C4: creating table Users in the sample database and finding it
again under the casing USERS. -/
theorem spec_c4_create_table_witness :
    ((∃ db', create_table sampleDb "Users" sampleCols = .ok db')
        ↔ ¬ ∃ kt ∈ sampleDb, strLower kt.2.name = strLower "Users")
    ∧ (if (alookup sampleDb (strLower "Users")).isSome then
        create_table sampleDb "Users" sampleCols
          = .error (.valErr ("Table " ++ "Users" ++ " already exists"))
        ∧ step sampleDb (.createTable "Users" sampleCols) = sampleDb
      else
        create_table sampleDb "Users" sampleCols
          = .ok (sampleDb ++ [(strLower "Users", Table.mk "Users" sampleCols [])])
        ∧ get_table (sampleDb ++ [(strLower "Users", Table.mk "Users" sampleCols [])])
            "USERS" = .ok (Table.mk "Users" sampleCols [])) :=
  spec_c4_create_table sampleDb "Users" sampleCols "USERS" (by decide) (by decide)

/-- Inserting a list of correctly-sized value lists into a single-table database
appends the corresponding zip-built rows in order. -/
theorem insertSeq_ok (name : String) (cols : List ColumnDef) (rows : List Row)
    (valss : List (List Value))
    (hlen : ∀ vs ∈ valss, vs.length = cols.length) :
    insertSeq [(strLower name, Table.mk name cols rows)] name valss
      = .ok [(strLower name, Table.mk name cols (rows ++ valss.map (rowOf cols)))] := by
  induction valss generalizing rows with
  | nil => simp [insertSeq]
  | cons vs valss ih =>
      have hv : vs.length = cols.length := hlen vs (List.mem_cons_self _ _)
      have hins : dbInsert [(strLower name, Table.mk name cols rows)] name vs
          = .ok [(strLower name, Table.mk name cols (rows ++ [rowOf cols vs]))] := by
        rw [dbInsert_unfold]
        simp [get_table, alookup, Table.insert_row, hv, dictInsert]
      simp only [insertSeq]
      rw [hins]
      dsimp only
      rw [ih (rows ++ [rowOf cols vs])
        (fun v hv' => hlen v (List.mem_cons_of_mem _ hv'))]
      simp

/-- C1: creating a table then performing N successful inserts stores exactly the
N zip-built rows in insertion order; SELECT * returns exactly those N rows, and
each of them binds every declared column's name. -/
theorem spec_c1_roundtrip (name : String) (cols : List ColumnDef)
    (valss : List (List Value)) (r : Row) (c : ColumnDef)
    (hlen : ∀ vs ∈ valss, vs.length = cols.length)
    (hr : r ∈ valss.map (rowOf cols)) (hc : c ∈ cols) :
    create_table [] name cols = .ok [(strLower name, Table.mk name cols [])]
    ∧ insertSeq [(strLower name, Table.mk name cols [])] name valss
        = .ok [(strLower name, Table.mk name cols (valss.map (rowOf cols)))]
    ∧ dbSelect [(strLower name, Table.mk name cols (valss.map (rowOf cols)))]
        name none = .ok (valss.map (rowOf cols))
    ∧ (valss.map (rowOf cols)).length = valss.length
    ∧ (alookup r c.name).isSome := by
  refine ⟨?_, ?_, ?_, by simp, ?_⟩
  · simp [create_table, alookup, dictInsert]
  · simpa using insertSeq_ok name cols [] valss hlen
  · simp [dbSelect, get_table, alookup, Table.select]
  · rcases List.mem_map.1 hr with ⟨vs, hvs, rfl⟩
    rw [alookup_isSome_iff, mem_dkeys_rowOf _ _ (hlen vs hvs)]
    exact List.mem_map_of_mem _ hc

/-- Witness for C1: two inserts into a freshly created two-column table. -/
theorem spec_c1_roundtrip_witness :
    create_table [] "T" sampleCols
        = .ok [(strLower "T", Table.mk "T" sampleCols [])]
    ∧ insertSeq [(strLower "T", Table.mk "T" sampleCols [])] "T"
        [[Value.int 1, Value.text "x"], [Value.int 2, Value.text "y"]]
        = .ok [(strLower "T", Table.mk "T" sampleCols
            ([[Value.int 1, Value.text "x"], [Value.int 2, Value.text "y"]].map
              (rowOf sampleCols)))]
    ∧ dbSelect [(strLower "T", Table.mk "T" sampleCols
          ([[Value.int 1, Value.text "x"], [Value.int 2, Value.text "y"]].map
            (rowOf sampleCols)))] "T" none
        = .ok ([[Value.int 1, Value.text "x"], [Value.int 2, Value.text "y"]].map
            (rowOf sampleCols))
    ∧ ([[Value.int 1, Value.text "x"], [Value.int 2, Value.text "y"]].map
          (rowOf sampleCols)).length
        = [[Value.int 1, Value.text "x"], [Value.int 2, Value.text "y"]].length
    ∧ (alookup (rowOf sampleCols [Value.int 1, Value.text "x"])
        (ColumnDef.mk "a" ColumnType.INT true false).name).isSome :=
  spec_c1_roundtrip "T" sampleCols
    [[Value.int 1, Value.text "x"], [Value.int 2, Value.text "y"]]
    (rowOf sampleCols [Value.int 1, Value.text "x"])
    (ColumnDef.mk "a" ColumnType.INT true false)
    (by decide) (by decide) (by decide)

/-- One step preserves the strengthened invariant when the statement's CREATE
TABLE column list (if any) has pairwise-distinct names. -/
theorem strongInv_step (db : Database) (s : Statement)
    (hdb : StrongInv db) (hs : createdNodupB s = true) :
    StrongInv (step db s) := by
  cases s with
  | select tn cols =>
      rw [step_select_eq]
      exact hdb
  | createTable name cols =>
      rw [step_create_eq]
      by_cases hex : (alookup db (strLower name)).isSome
      · have hcr : create_table db name cols
            = .error (.valErr ("Table " ++ name ++ " already exists")) := by
          simp [create_table, hex]
        rw [hcr]
        exact hdb
      · have hnotmem : strLower name ∉ dkeys db := by
          rw [← alookup_isSome_iff]
          simpa using hex
        have hcr : create_table db name cols
            = .ok (db ++ [(strLower name, Table.mk name cols [])]) := by
          simp [create_table, hex, dictInsert_of_not_mem _ _ _ hnotmem]
        rw [hcr]
        intro kt hkt
        rcases List.mem_append.1 hkt with hmem | hmem
        · exact hdb kt hmem
        · rw [List.mem_singleton] at hmem
          subst hmem
          refine ⟨rfl, ?_, ?_⟩
          · simpa [createdNodupB] using hs
          · intro r hrr
            simp at hrr
  | insertInto tn vs =>
      rw [step_insert_eq]
      cases hins : dbInsert db tn vs with
      | error e => exact hdb
      | ok db' =>
          rw [dbInsert_unfold] at hins
          cases hg : get_table db tn with
          | error e => rw [hg] at hins; simp at hins
          | ok t =>
              rw [hg] at hins
              dsimp only at hins
              cases hir : t.insert_row vs with
              | error e => rw [hir] at hins; simp at hins
              | ok t' =>
                  rw [hir] at hins
                  dsimp only at hins
                  have hdb' : db' = dictInsert db (strLower tn) t' := by
                    simpa using hins.symm
                  subst hdb'
                  simp only [Table.insert_row] at hir
                  by_cases hlen : vs.length = t.columns.length
                  · rw [if_neg (not_not_intro hlen)] at hir
                    have ht' : Table.mk t.name t.columns
                        (t.rows ++ [rowOf t.columns vs]) = t' := by
                      simpa using hir
                    subst ht'
                    simp only [get_table] at hg
                    cases ha : alookup db (strLower tn) with
                    | none => rw [ha] at hg; simp at hg
                    | some u =>
                        rw [ha] at hg
                        have hut : u = t := by simpa using hg
                        subst hut
                        have hmemdb : (strLower tn, u) ∈ db :=
                          alookup_eq_some_mem _ _ _ ha
                        have ht := hdb _ hmemdb
                        intro kt hkt
                        rcases mem_dictInsert _ _ _ _ hkt with hmem | hmemeq
                        · exact hdb kt hmem
                        · subst hmemeq
                          refine ⟨ht.1, ht.2.1, ?_⟩
                          intro r hrr
                          rcases List.mem_append.1 hrr with hold | hnew
                          · exact ht.2.2 r hold
                          · rw [List.mem_singleton] at hnew
                            subst hnew
                            exact dkeys_rowOf_of_nodup _ _ ht.2.1 hlen
                  · rw [if_pos hlen] at hir
                    simp at hir

/-- Executing any statement sequence from a state satisfying the strengthened
invariant preserves it, provided every CREATE TABLE declares distinct names. -/
theorem strongInv_runFrom (db : Database) (stmts : List Statement)
    (hdb : StrongInv db) (hall : ∀ s ∈ stmts, createdNodupB s = true) :
    StrongInv (runFrom db stmts) := by
  induction stmts generalizing db with
  | nil => simpa [runFrom] using hdb
  | cons s stmts ih =>
      simp only [runFrom, List.foldl_cons]
      exact ih (step db s)
        (strongInv_step db s hdb (hall s (List.mem_cons_self _ _)))
        (fun x hx => hall x (List.mem_cons_of_mem _ hx))

/-- C6 counterexample: after CREATE TABLE t (a INT, a INT) and a successful
two-value insert, the stored row binds the repeated name only once, so its key
sequence is not the declared column-name sequence — the invariant as claimed
fails for a CREATE TABLE whose column list repeats a name. -/
theorem spec_c6_counterexample :
    ¬ DbInv (runStmts
      [Statement.createTable "t"
        [ColumnDef.mk "a" ColumnType.INT true false,
         ColumnDef.mk "a" ColumnType.INT true false],
       Statement.insertInto "t" [Value.int 1, Value.int 2]]) := by
  decide

/-- C6 amended: in every database state reachable by executing a statement
sequence whose CREATE TABLE column lists are duplicate-free, every row of every
table has exactly one value per declared column, in declared column order —
preserved by create_table, insert and select alike. -/
theorem spec_c6_row_invariant (stmts : List Statement)
    (hall : ∀ s ∈ stmts, createdNodupB s = true) :
    DbInv (runStmts stmts) := by
  have h := strongInv_runFrom [] stmts (by intro kt hkt; simp at hkt) hall
  intro kt hkt r hr
  exact (h kt hkt).2.2 r hr

/-- Witness for C6: a create followed by an insert on a duplicate-free schema. -/
theorem spec_c6_row_invariant_witness :
    DbInv (runStmts [Statement.createTable "t" sampleCols,
      Statement.insertInto "t" [Value.int 1, Value.text "x"]]) :=
  spec_c6_row_invariant _ (by decide)
